import Mathlib

/-!
Verification of the Arcade flow-analysis pipeline.

A shallow embedding of the interaction-extraction / ranking / summarization
pipeline of the repository (`src/services/ai_service.py`,
`src/services/image_utils.py`, `src/services/report_service.py`,
`src/cli/commands.py`), together with theorems settling the specification
claims about it.

Modelling conventions:
* Backend calls (OpenAI chat completions, embeddings, image generation) are
  external collaborators; each is a parameter returning `Except String _`,
  where `Except.error` models a raised Python exception.
* Python floats are modelled as exact rationals (`ℚ`).  `np.linalg.norm`
  (a floating-point square root) is an abstract parameter `norm`.
* `FlowData` is the parsed `flow.json` TypedDict; only the fields this part
  of the pipeline reads are modelled.  Fields read with `dict.get(key,
  default)` are `Option`s so that a missing key is distinguishable from a
  present-but-empty value; step and event records are opaque type
  parameters `σ` and `ε` since the pipeline never inspects them.
* Python list slices / indexing are modelled by explicit helpers with the
  clamping / error semantics of CPython.
-/

/-- Model of `flow_types/api_models.py`: `SummaryResponse` (fields `summary`,
`key_actions`, `goal`). -/
structure SummaryResponse where
  summary : String
  key_actions : List String
  goal : String
deriving DecidableEq

/-- Model of `flow_types/chunk_models.py`: `ChunkInfo`. -/
structure ChunkInfo where
  chunk_index : Nat
  total_chunks : Nat
  steps_in_chunk : Nat
deriving DecidableEq

/-- Model of `flow_types/flow_types.py`: the fields of the `FlowData` TypedDict read
by the chunker / ranker / summarizer / image stage.  `σ` is the type of step
records, `ε` the type of captured-event records (never inspected). -/
structure FlowData (σ ε : Type) where
  name : Option String
  useCase : Option String
  description : Option String
  aspectRatio : Option ℚ
  steps : List σ
  capturedEvents : List ε
deriving DecidableEq

/-- Model of `flow_types/chunk_models.py`: `FlowChunk` — metadata, a slice of steps,
all captured events, and the chunk position info. -/
structure FlowChunk (σ ε : Type) where
  name : String
  useCase : String
  description : String
  aspectRatio : Option ℚ
  steps : List σ
  capturedEvents : List ε
  chunk_info : ChunkInfo
deriving DecidableEq

/-- Model of `AIService._chunk_flow_data` (`ai_service.py` lines 81-150).

If `steps.length ≤ max_steps_per_chunk` a single chunk holds everything;
otherwise `total_chunks = (N + M - 1) // M` and the loop
`for i in range(0, len(steps), M)` emits the chunk with index `i // M`
holding the slice `steps[i : i + M]`.  Iterating `i = c*M` for
`c < total_chunks` visits exactly the same slices (for `M ≥ 1`). -/
def chunk_flow_data {σ ε : Type} (max_steps_per_chunk : Nat)
    (flow_data : FlowData σ ε) : List (FlowChunk σ ε) :=
  let steps := flow_data.steps
  let captured_events := flow_data.capturedEvents
  if steps.length ≤ max_steps_per_chunk then
    [{ name := flow_data.name.getD "Untitled Flow"
       useCase := flow_data.useCase.getD "unknown"
       description := flow_data.description.getD ""
       aspectRatio := flow_data.aspectRatio
       steps := steps
       capturedEvents := captured_events
       chunk_info := ⟨0, 1, steps.length⟩ }]
  else
    let total_chunks := (steps.length + max_steps_per_chunk - 1) / max_steps_per_chunk
    (List.range total_chunks).map (fun chunk_index =>
      let chunk_steps := (steps.drop (chunk_index * max_steps_per_chunk)).take
        max_steps_per_chunk
      { name := flow_data.name.getD "Untitled Flow"
        useCase := flow_data.useCase.getD "unknown"
        description := flow_data.description.getD ""
        aspectRatio := flow_data.aspectRatio
        steps := chunk_steps
        capturedEvents := captured_events
        chunk_info := ⟨chunk_index, total_chunks, chunk_steps.length⟩ })

/-- Model of `AIService._process_chunk` (`ai_service.py` lines 152-203).

`backend_result` is the outcome of the `chat.completions.create` call:
`Except.error` for a raised exception, otherwise the (optional) message
content.  `parse` is `InteractionsResponse.model_validate_json`, which
raises (`Except.error`) on schema-validation failure.  Both the call and
the parse sit inside `try`, and the `except` branch returns `[]`; an
absent / empty content also falls through to `return []`. -/
def process_chunk (parse : String → Except String (List String))
    (backend_result : Except String (Option String)) : List String :=
  match backend_result with
  | Except.error _ => []
  | Except.ok none => []
  | Except.ok (some content) =>
    match parse content with
    | Except.ok interactions => interactions
    | Except.error _ => []

/-- Model of `AIService.identify_interactions` (`ai_service.py` lines 205-235):
chunk the flow, process each chunk in order, and concatenate the
per-chunk interaction lists.  `backend` gives, per chunk (and its index),
the outcome of that chunk's completion call. -/
def identify_interactions {σ ε : Type} (max_steps_per_chunk : Nat)
    (parse : String → Except String (List String))
    (backend : FlowChunk σ ε → Nat → Except String (Option String))
    (flow_data : FlowData σ ε) : List String :=
  let chunks := chunk_flow_data max_steps_per_chunk flow_data
  (chunks.enum.map (fun p => process_chunk parse (backend p.2 p.1))).flatten

/-- Model of `np.dot` on 1-d arrays: the sum of pairwise products. -/
def np_dot (a b : List ℚ) : ℚ := (List.zipWith (fun x y => x * y) a b).sum

/-- The local `cosine_similarity` helper of
`AIService._embedding_based_filter_interactions` (`ai_service.py` lines
293-294), and the inline expression of `_mmr_select_indices` (lines
353-355): `np.dot(a, b) / (np.linalg.norm(a) * np.linalg.norm(b))`.
`norm` abstracts `np.linalg.norm` (a floating-point Euclidean norm). -/
def cosine_similarity (norm : List ℚ → ℚ) (a b : List ℚ) : ℚ :=
  np_dot a b / (norm a * norm b)

/-- Model of `np.argmax` on a 1-d array: the first index attaining the maximum
(`none` on an empty array, where numpy raises `ValueError`). -/
def np_argmax (l : List ℚ) : Option Nat :=
  (List.range l.length).find?
    (fun i => (List.range l.length).all (fun j => l.getD j 0 ≤ l.getD i 0))

/-- The `max(...)` generator expression of `_mmr_select_indices`
(`ai_service.py` lines 353-357): the maximum cosine similarity of
candidate `idx` to the already-selected indices.  Python's `max` raises on
an empty sequence; the `[]` case is arbitrary (`0`) and unreachable
because the loop seeds `selected_indices` before it runs. -/
def max_sim_to_selected (norm : List ℚ → ℚ) (embeddings : List (List ℚ))
    (idx : Nat) (selected : List Nat) : ℚ :=
  match selected with
  | [] => 0
  | s :: rest =>
    rest.foldl
      (fun m j =>
        max m (cosine_similarity norm (embeddings.getD idx []) (embeddings.getD j [])))
      (cosine_similarity norm (embeddings.getD idx []) (embeddings.getD s []))

/-- The MMR score of a candidate (`ai_service.py` lines 349-361):
`lambda_param * importance + (1 - lambda_param) * diversity` with
`diversity = 1 - max_similarity_to_selected`. -/
def mmr_score (norm : List ℚ → ℚ) (embeddings : List (List ℚ))
    (importance_scores : List ℚ) (lambda_param : ℚ) (selected : List Nat)
    (idx : Nat) : ℚ :=
  lambda_param * importance_scores.getD idx 0 +
    (1 - lambda_param) * (1 - max_sim_to_selected norm embeddings idx selected)

/-- The inner `for idx in remaining_indices` loop of `_mmr_select_indices`
(`ai_service.py` lines 344-365): a running maximum starting from
`best_score = -1.0`, `best_idx = None`, updated on strict `>`. -/
def mmr_pick (score : Nat → ℚ) (remaining : List Nat) : ℚ × Option Nat :=
  remaining.foldl
    (fun best idx => if best.1 < score idx then (score idx, some idx) else best)
    (-1, none)

/-- The `while` loop of `_mmr_select_indices` (`ai_service.py` lines
344-371).  `fuel` is an upper bound on the number of iterations; callers
pass `remaining.length`, which is exact since every iteration removes one
element of `remaining` (and the loop requires `remaining ≠ []`). -/
def mmr_loop (norm : List ℚ → ℚ) (embeddings : List (List ℚ))
    (importance_scores : List ℚ) (lambda_param : ℚ) (target_count : Int) :
    Nat → List Nat → List Nat → List Nat
  | 0, selected, _ => selected
  | fuel + 1, selected, remaining =>
    if (selected.length : Int) < target_count ∧ remaining ≠ [] then
      match (mmr_pick
          (mmr_score norm embeddings importance_scores lambda_param selected)
          remaining).2 with
      | some best_idx =>
        mmr_loop norm embeddings importance_scores lambda_param target_count
          fuel (selected ++ [best_idx]) (remaining.erase best_idx)
      | none => selected
    else selected

/-- Model of `AIService._mmr_select_indices` (`ai_service.py` lines 312-373).
Seeds the selection with `np.argmax(importance_scores)` (`ValueError`,
i.e. `Except.error`, on an empty array), then runs the selection loop.
The source's `lambda_param` default is `0.7`; callers here pass it
explicitly. -/
def mmr_select_indices (norm : List ℚ → ℚ) (embeddings : List (List ℚ))
    (importance_scores : List ℚ) (target_count : Int) (lambda_param : ℚ) :
    Except String (List Nat) :=
  match np_argmax importance_scores with
  | none => Except.error "ValueError: attempt to get argmax of an empty sequence"
  | some first_idx =>
    let selected : List Nat := [first_idx]
    let remaining := (List.range embeddings.length).erase first_idx
    Except.ok (mmr_loop norm embeddings importance_scores lambda_param
      target_count remaining.length selected remaining)

/-- The query construction of `_embedding_based_filter_interactions`
(`ai_service.py` lines 258-281): fixed archetypal-action sentences, plus
flow-specific fragments under the source's conditions. -/
def build_importance_query {σ ε : Type} (flow_data : Option (FlowData σ ε)) :
    String :=
  let base := "User completed tasks. User submitted forms. User made decisions. User entered data. User confirmed actions. User achieved goals. User created something. User configured settings. User uploaded files. User saved changes. User published content. User finalized work."
  let query_parts := [base]
  let query_parts :=
    match flow_data with
    | none => query_parts
    | some fd =>
      let flow_name := fd.name.getD ""
      let use_case := fd.useCase.getD ""
      let description := fd.description.getD ""
      let query_parts :=
        if flow_name ≠ "" ∧ flow_name ≠ "Untitled Flow" then
          query_parts ++ ["User actions in " ++ flow_name ++ "."]
        else query_parts
      let query_parts :=
        if use_case ≠ "" ∧ use_case ≠ "unknown" ∧ use_case ≠ "other" then
          query_parts ++ ["Actions related to " ++ use_case ++ "."]
        else query_parts
      let query_parts :=
        if description ≠ "" then
          query_parts ++
            ["User " ++ ((description.splitOn ".").getD 0 "" ++ ".")]
        else query_parts
      query_parts
  String.intercalate " " query_parts

/-- Python's `l[:stop]` slice for an `int` stop: clamps, and a negative
stop counts from the end. -/
def py_slice_to {α : Type} (l : List α) (stop : Int) : List α :=
  if 0 ≤ stop then l.take stop.toNat
  else l.take (l.length - (-stop).toNat)

/-- Model of `AIService._embedding_based_filter_interactions` (`ai_service.py`
lines 237-310).  `embed` is the batched `embeddings.create` call: given
`all_texts = query :: interactions` it either raises or returns one
vector per text (`response.data`).  Everything from the call through the
final list comprehension sits inside `try`; the `except` branch returns
the fallback `interactions[:target_count]`.  The unreachable-in-practice
index errors (`data[0]` on an empty response, `interactions[i]` out of
range) also land in that branch. -/
def embedding_based_filter_interactions {σ ε : Type} (norm : List ℚ → ℚ)
    (embed : List String → Except String (List (List ℚ)))
    (interactions : List String) (target_count : Int)
    (flow_data : Option (FlowData σ ε)) : List String :=
  let query_text := build_importance_query flow_data
  let all_texts := query_text :: interactions
  match embed all_texts with
  | Except.error _ => py_slice_to interactions target_count
  | Except.ok data =>
    match data with
    | [] => py_slice_to interactions target_count
    | query_embedding :: interaction_embeddings =>
      let similarities := interaction_embeddings.map
        (fun emb => cosine_similarity norm emb query_embedding)
      match mmr_select_indices norm interaction_embeddings similarities
          target_count (7/10) with
      | Except.error _ => py_slice_to interactions target_count
      | Except.ok selected_indices =>
        match selected_indices.mapM (fun i => interactions.get? i) with
        | some chosen => chosen
        | none => py_slice_to interactions target_count

/-- Model of `AIService._rank_interactions` (`ai_service.py` lines 375-407): a pure
pass-through when the list already fits, otherwise the embedding-based
filter. -/
def rank_interactions {σ ε : Type} (norm : List ℚ → ℚ)
    (embed : List String → Except String (List (List ℚ)))
    (flow_data : FlowData σ ε) (interactions : List String)
    (max_interactions : Int) : List String :=
  if (interactions.length : Int) ≤ max_interactions then interactions
  else
    embedding_based_filter_interactions norm embed interactions
      max_interactions (some flow_data)

/-- The interaction list `generate_summary` actually summarizes
(`ai_service.py` lines 425-429): ranked iff the input exceeds
`max_interactions_for_summary`. -/
def summary_input {σ ε : Type} (max_interactions_for_summary : Int)
    (norm : List ℚ → ℚ)
    (embed : List String → Except String (List (List ℚ)))
    (flow_data : FlowData σ ε) (interactions : List String) : List String :=
  if max_interactions_for_summary < (interactions.length : Int) then
    rank_interactions norm embed flow_data interactions
      max_interactions_for_summary
  else interactions

/-- The summary prompt construction (`ai_service.py` lines 432-440):
`prompt_template.format(flow_name=..., use_case=..., interactions_text=...)`
with `interactions_text = "\n".join("- " + i)`. -/
def build_summary_prompt {σ ε : Type} (template : String)
    (flow_data : FlowData σ ε) (interactions : List String) : String :=
  let interactions_text :=
    String.intercalate "\n" (interactions.map (fun i => "- " ++ i))
  ((template.replace "{flow_name}" (flow_data.name.getD "Untitled Flow")).replace
      "{use_case}" (flow_data.useCase.getD "unknown")).replace
    "{interactions_text}" interactions_text

/-- Model of `AIService.generate_summary` (`ai_service.py` lines 409-475).

The `chat.completions.create` call (`chat`) is **outside** any
`try/except`: an error there propagates (`Except.error`).  Only the
Pydantic parse (`parse_summary`, i.e.
`SummaryResponse.model_validate_json`) is wrapped, and an absent or empty
(`if content:` falsy) message content falls through to the final
`return`; both of those produce the fixed fallback string. -/
def generate_summary {σ ε : Type} (max_interactions_for_summary : Int)
    (norm : List ℚ → ℚ)
    (embed : List String → Except String (List (List ℚ)))
    (template : String) (chat : String → Except String (Option String))
    (parse_summary : String → Except String SummaryResponse)
    (flow_data : FlowData σ ε) (interactions : List String) :
    Except String (String × List String) :=
  let interactions := summary_input max_interactions_for_summary norm embed
    flow_data interactions
  let prompt := build_summary_prompt template flow_data interactions
  match chat prompt with
  | Except.error e => Except.error e
  | Except.ok none => Except.ok ("Unable to generate summary.", interactions)
  | Except.ok (some content) =>
    if content.isEmpty then
      Except.ok ("Unable to generate summary.", interactions)
    else
      match parse_summary content with
      | Except.ok parsed => Except.ok (parsed.summary, interactions)
      | Except.error _ =>
        Except.ok ("Unable to generate summary.", interactions)

/-- Model of `image_utils.build_image_prompt` (`image_utils.py` lines 10-22): takes
exactly **three** arguments `(template, flow_name, summary)` and formats
the template with them. -/
def build_image_prompt (template flow_name summary : String) : String :=
  (template.replace "{flow_name}" flow_name).replace "{summary}" summary

/-- CPython call semantics for `build_image_prompt` applied to a list of
positional arguments: binding succeeds only for exactly three arguments,
otherwise the call raises `TypeError` before the body runs. -/
def call_build_image_prompt (args : List String) : Except String String :=
  match args with
  | [template, flow_name, summary] =>
    Except.ok (build_image_prompt template flow_name summary)
  | _ =>
    Except.error
      "TypeError: build_image_prompt() takes 3 positional arguments but 4 were given"

/-- Model of `AIService.create_social_image` (`ai_service.py` lines 477-511).

Lines 488-493 (metadata defaults and the prompt construction) run
**before** the `try` block; the source calls
`build_image_prompt(prompt_template, flow_name, use_case, summary)` with
four positional arguments.  Everything inside the `try` (the image
request and `save_generated_image`) is caught by the bare `except`, so a
successful prompt construction always returns `ok ()`. -/
def create_social_image {σ ε : Type} (prompt_template : String)
    (image_backend : String → Except String (Option String))
    (flow_data : FlowData σ ε) (summary : String) : Except String Unit :=
  let flow_name := flow_data.name.getD "Untitled Flow"
  let use_case := flow_data.useCase.getD "unknown"
  match call_build_image_prompt [prompt_template, flow_name, use_case, summary] with
  | Except.error e => Except.error e
  | Except.ok _image_prompt => Except.ok ()

/-- Model of `ReportService.generate_report` (`report_service.py` lines 10-52),
up to the final `"\n".join` / file write: the list `markdown_lines`.
The numbered list uses `enumerate(interactions, 1)`. -/
def generate_report (interactions : List String) (summary : String)
    (image_path : String) : List String :=
  ["# Arcade Flow Analysis Report", "", "## Summary", "", summary, "",
      "## User Interactions", ""] ++
    (List.range interactions.length).map
      (fun k => toString (k + 1) ++ ". " ++ interactions.getD k "") ++
    ["", "## Social Media Image", "", "![Flow Visualization](" ++ image_path ++ ")",
      ""]

/-- The pipeline body of the `analyze` command (`cli/commands.py` lines
128-155): extract interactions, summarize, create the image, then build
the report from `all_interactions` (the **pre-ranking** list).  Uncaught
exceptions in any step abort the run (`Except.error`); on success the
result is the report markdown. -/
def analyze_pipeline {σ ε : Type} (max_steps_per_chunk : Nat)
    (max_interactions_for_summary : Int) (norm : List ℚ → ℚ)
    (parse_interactions : String → Except String (List String))
    (chunk_backend : FlowChunk σ ε → Nat → Except String (Option String))
    (embed : List String → Except String (List (List ℚ)))
    (summary_template : String)
    (chat : String → Except String (Option String))
    (parse_summary : String → Except String SummaryResponse)
    (image_template : String)
    (image_backend : String → Except String (Option String))
    (image_output : String) (flow_data : FlowData σ ε) :
    Except String String :=
  let all_interactions := identify_interactions max_steps_per_chunk
    parse_interactions chunk_backend flow_data
  match generate_summary max_interactions_for_summary norm embed
      summary_template chat parse_summary flow_data all_interactions with
  | Except.error e => Except.error e
  | Except.ok (summary, _interactions_for_summary) =>
    match create_social_image image_template image_backend flow_data summary with
    | Except.error e => Except.error e
    | Except.ok _ =>
      Except.ok (String.intercalate "\n"
        (generate_report all_interactions summary image_output))


/-! ## Helper lemmas: chunking -/

lemma flatten_chunk_slices {σ : Type} (M : Nat) (hM : 1 ≤ M) (l : List σ) :
    ((List.range ((l.length + M - 1) / M)).map
      (fun i => (l.drop (i * M)).take M)).flatten = l := by
  cases l with
  | nil =>
    have h0 : (List.length ([] : List σ) + M - 1) / M = 0 := by
      rw [List.length_nil]
      exact Nat.div_eq_of_lt (by omega)
    rw [h0]
    simp
  | cons a as =>
    have hT : ((a :: as).length + M - 1) / M =
        ((a :: as).length - 1) / M + 1 := by
      have h1 : (a :: as).length + M - 1 = ((a :: as).length - 1) + M := by
        simp
      rw [h1, Nat.add_div_right _ (by omega)]
    have htail : ((a :: as).drop M).length = (a :: as).length - M := by
      simp
    have hT' : (((a :: as).drop M).length + M - 1) / M =
        ((a :: as).length - 1) / M := by
      rw [htail]
      rcases Nat.le_total M ((a :: as).length) with hMN | hNM
      · congr 1
        omega
      · rw [Nat.div_eq_of_lt (by omega), Nat.div_eq_of_lt (by omega)]
    rw [hT, List.range_succ_eq_map, List.map_cons, List.map_map,
      List.flatten_cons]
    have hfun : (List.range (((a :: as).length - 1) / M)).map
          ((fun i => ((a :: as).drop (i * M)).take M) ∘ Nat.succ) =
        (List.range (((a :: as).length - 1) / M)).map
          (fun i => (((a :: as).drop M).drop (i * M)).take M) := by
      refine List.map_congr_left ?_
      intro i _
      simp only [Function.comp_apply]
      rw [List.drop_drop]
      congr 2
      rw [Nat.succ_mul]
      ring
    rw [hfun]
    have hrec := flatten_chunk_slices M hM ((a :: as).drop M)
    rw [hT'] at hrec
    rw [hrec]
    simp [List.take_append_drop]
termination_by l.length
decreasing_by simp; omega

/-- Claim C3: for a flow with `N` steps and `maxStepsPerChunk = M ≥ 1`,
`_chunk_flow_data` produces exactly `max 1 ⌈N/M⌉` chunks; chunk `i` holds
the step slice starting at `i*M` of length at most `M`, the full
`capturedEvents` list, the flow metadata, and chunk info
`⟨i, chunk count, slice length⟩`; concatenating the chunks' step lists in
index order reconstructs the original steps exactly. -/
theorem chunk_flow_data_spec {σ ε : Type} (M : Nat) (fd : FlowData σ ε)
    (hM : 1 ≤ M) :
    (chunk_flow_data M fd).length =
      max 1 ((fd.steps.length + M - 1) / M) ∧
    (∀ i (h : i < (chunk_flow_data M fd).length),
      ((chunk_flow_data M fd).get ⟨i, h⟩).steps =
        (fd.steps.drop (i * M)).take M ∧
      ((chunk_flow_data M fd).get ⟨i, h⟩).capturedEvents =
        fd.capturedEvents ∧
      ((chunk_flow_data M fd).get ⟨i, h⟩).name = fd.name.getD "Untitled Flow" ∧
      ((chunk_flow_data M fd).get ⟨i, h⟩).useCase = fd.useCase.getD "unknown" ∧
      ((chunk_flow_data M fd).get ⟨i, h⟩).description =
        fd.description.getD "" ∧
      ((chunk_flow_data M fd).get ⟨i, h⟩).aspectRatio = fd.aspectRatio ∧
      ((chunk_flow_data M fd).get ⟨i, h⟩).chunk_info =
        ⟨i, (chunk_flow_data M fd).length,
          ((chunk_flow_data M fd).get ⟨i, h⟩).steps.length⟩) ∧
    ((chunk_flow_data M fd).map (fun c => c.steps)).flatten = fd.steps := by
  by_cases hsmall : fd.steps.length ≤ M
  · have hone : (fd.steps.length + M - 1) / M < 2 := by
      rw [Nat.div_lt_iff_lt_mul (by omega)]
      omega
    have hchunks : chunk_flow_data M fd =
        [{ name := fd.name.getD "Untitled Flow"
           useCase := fd.useCase.getD "unknown"
           description := fd.description.getD ""
           aspectRatio := fd.aspectRatio
           steps := fd.steps
           capturedEvents := fd.capturedEvents
           chunk_info := ⟨0, 1, fd.steps.length⟩ }] := by
      simp [chunk_flow_data, hsmall]
    refine ⟨?_, ?_, ?_⟩
    · rw [hchunks, List.length_singleton]
      generalize hd : (fd.steps.length + M - 1) / M = d at hone ⊢
      omega
    · intro i h
      rw [hchunks] at h
      simp only [List.length_singleton] at h
      have hi : i = 0 := by omega
      subst hi
      simp [hchunks, List.take_of_length_le hsmall]
    · rw [hchunks]
      simp
  · have hlen : (chunk_flow_data M fd).length =
        (fd.steps.length + M - 1) / M := by
      simp [chunk_flow_data, hsmall]
    have hT1 : 1 ≤ (fd.steps.length + M - 1) / M := by
      rw [Nat.one_le_div_iff (by omega)]
      omega
    refine ⟨?_, ?_, ?_⟩
    · rw [hlen]
      generalize hd : (fd.steps.length + M - 1) / M = d at hT1 ⊢
      omega
    · intro i h
      have hget : (chunk_flow_data M fd).get ⟨i, h⟩ =
          { name := fd.name.getD "Untitled Flow"
            useCase := fd.useCase.getD "unknown"
            description := fd.description.getD ""
            aspectRatio := fd.aspectRatio
            steps := (fd.steps.drop (i * M)).take M
            capturedEvents := fd.capturedEvents
            chunk_info := ⟨i, (fd.steps.length + M - 1) / M,
              ((fd.steps.drop (i * M)).take M).length⟩ } := by
        simp [chunk_flow_data, hsmall]
      rw [hget, hlen]
      simp
    · have hmap : (chunk_flow_data M fd).map (fun c => c.steps) =
          (List.range ((fd.steps.length + M - 1) / M)).map
            (fun i => (fd.steps.drop (i * M)).take M) := by
        simp [chunk_flow_data, hsmall, List.map_map]
      rw [hmap]
      exact flatten_chunk_slices M hM fd.steps

/-- Witness for C3: a concrete flow with 5 steps and `M = 2` (3 chunks). -/
theorem chunk_flow_data_spec_witness :
    1 ≤ 2 ∧
    (chunk_flow_data 2
        (⟨some "F", some "demo", some "d", none, [10, 20, 30, 40, 50],
          ([] : List Nat)⟩ : FlowData Nat Nat)).length =
      max 1 ((((⟨some "F", some "demo", some "d", none, [10, 20, 30, 40, 50],
          ([] : List Nat)⟩ : FlowData Nat Nat)).steps.length + 2 - 1) / 2) :=
  ⟨by decide,
    (chunk_flow_data_spec 2
      (⟨some "F", some "demo", some "d", none, [10, 20, 30, 40, 50],
        ([] : List Nat)⟩ : FlowData Nat Nat) (by decide)).1⟩

/-! ## Shared concrete example data for witnesses -/

/-- A small concrete flow used to instantiate witnesses. -/
def sampleFlow : FlowData Nat Nat :=
  ⟨some "F", some "demo", some "d", none, [10, 20, 30], []⟩

/-! ## Claim C6: per-chunk extraction failures are local -/

/-- A chunk's extraction fails: the completion call raised, the message
content was absent, or schema validation raised. -/
def chunk_extraction_failed (parse : String → Except String (List String))
    (backend_result : Except String (Option String)) : Prop :=
  (∃ e, backend_result = Except.error e) ∨
    backend_result = Except.ok none ∨
    (∃ content e, backend_result = Except.ok (some content) ∧
      parse content = Except.error e)

/-- Claim C6: `identify_interactions` is the concatenation, in chunk-index
order, of each chunk's contribution (a total function — no exception
escapes); a chunk whose backend call or schema validation fails
contributes exactly `[]`, and a chunk whose content parses contributes
exactly its parsed interaction list (intra-chunk order preserved). -/
theorem identify_interactions_resilient {σ ε : Type} (max_steps_per_chunk : Nat)
    (parse : String → Except String (List String))
    (backend : FlowChunk σ ε → Nat → Except String (Option String))
    (flow_data : FlowData σ ε) :
    identify_interactions max_steps_per_chunk parse backend flow_data =
      ((chunk_flow_data max_steps_per_chunk flow_data).enum.map
        (fun p => process_chunk parse (backend p.2 p.1))).flatten ∧
    (∀ r, chunk_extraction_failed parse r → process_chunk parse r = []) ∧
    (∀ content interactions, parse content = Except.ok interactions →
      process_chunk parse (Except.ok (some content)) = interactions) := by
  refine ⟨rfl, ?_, ?_⟩
  · intro r hr
    rcases hr with ⟨e, rfl⟩ | rfl | ⟨content, e, rfl, hp⟩
    · rfl
    · rfl
    · simp [process_chunk, hp]
  · intro content interactions hp
    simp [process_chunk, hp]

/-- Witness for C6: with a parser that rejects `"bad"`, a chunk whose
response content is `"bad"` contributes no interactions. -/
theorem identify_interactions_resilient_witness :
    process_chunk (fun s => if s = "bad" then Except.error "ValidationError"
      else Except.ok [s]) (Except.ok (some "bad")) = [] :=
  (identify_interactions_resilient 2
      (fun s => if s = "bad" then Except.error "ValidationError"
        else Except.ok [s])
      (fun _ _ => Except.ok none) sampleFlow).2.1
    (Except.ok (some "bad"))
    (Or.inr (Or.inr ⟨"bad", "ValidationError", rfl, by simp⟩))

/-! ## Claim C5: embedding failure falls back to the first K interactions -/

/-- Claim C5: if the batched embedding call raises while ranking a list of
more than `K ≥ 0` interactions, `_rank_interactions` returns exactly the
first `K` interactions of its input, in original order (and, being a total
function, lets no exception escape). -/
theorem rank_interactions_embed_failure_fallback {σ ε : Type}
    (norm : List ℚ → ℚ) (embed : List String → Except String (List (List ℚ)))
    (flow_data : FlowData σ ε) (interactions : List String) (K : Int)
    (e : String)
    (hfail : embed (build_importance_query (some flow_data) :: interactions) =
      Except.error e)
    (hK : 0 ≤ K) (hlen : K < (interactions.length : Int)) :
    rank_interactions norm embed flow_data interactions K =
      interactions.take K.toNat := by
  rw [rank_interactions, if_neg (by omega)]
  rw [embedding_based_filter_interactions]
  simp only [hfail]
  rw [py_slice_to, if_pos hK]

/-- Witness for C5: an always-raising embedding backend on a 3-interaction
list with `K = 2` yields the first two interactions. -/
theorem rank_interactions_embed_failure_fallback_witness :
    rank_interactions (fun _ => 1) (fun _ => Except.error "APIError")
      sampleFlow ["a", "b", "c"] 2 = (["a", "b", "c"].take ((2 : Int)).toNat) :=
  rank_interactions_embed_failure_fallback (fun _ => 1)
    (fun _ => Except.error "APIError") sampleFlow ["a", "b", "c"] 2 "APIError"
    rfl (by decide) (by decide)

/-! ## Claim C7: small interaction lists bypass the ranker -/

/-- Claim C7: when `len(interactions) ≤ maxInteractionsForSummary`, the
ranker passes the list through unchanged, `generate_summary` is
independent of the embedding backend (no embedding request is issued), and
any successful summary result carries the full interaction list unchanged,
in original order. -/
theorem small_list_skips_ranker {σ ε : Type} (K : Int) (norm : List ℚ → ℚ)
    (embed embed2 : List String → Except String (List (List ℚ)))
    (template : String) (chat : String → Except String (Option String))
    (parse_summary : String → Except String SummaryResponse)
    (flow_data : FlowData σ ε) (interactions : List String)
    (h : (interactions.length : Int) ≤ K) :
    rank_interactions norm embed flow_data interactions K = interactions ∧
    generate_summary K norm embed template chat parse_summary flow_data
        interactions =
      generate_summary K norm embed2 template chat parse_summary flow_data
        interactions ∧
    (∀ r, generate_summary K norm embed template chat parse_summary flow_data
        interactions = Except.ok r → r.2 = interactions) := by
  have hin : ∀ embed1 : List String → Except String (List (List ℚ)),
      summary_input K norm embed1 flow_data interactions = interactions := by
    intro embed1
    rw [summary_input, if_neg (by omega)]
  refine ⟨?_, ?_, ?_⟩
  · rw [rank_interactions, if_pos h]
  · rw [generate_summary, generate_summary, hin embed, hin embed2]
  · intro r hr
    rw [generate_summary, hin embed] at hr
    rcases hchat : chat (build_summary_prompt template flow_data interactions)
      with e | co
    · rw [hchat] at hr
      exact absurd hr (by simp)
    · rw [hchat] at hr
      match co with
      | none =>
        simp only [Except.ok.injEq] at hr
        rw [← hr]
      | some content =>
        simp only [] at hr
        by_cases hc : content.isEmpty
        · rw [if_pos hc] at hr
          simp only [Except.ok.injEq] at hr
          rw [← hr]
        · rw [if_neg hc] at hr
          rcases hp : parse_summary content with e | parsed
          · rw [hp] at hr
            simp only [Except.ok.injEq] at hr
            rw [← hr]
          · rw [hp] at hr
            simp only [Except.ok.injEq] at hr
            rw [← hr]

/-- Witness for C7: a 2-interaction list with `K = 50` passes through the
ranker unchanged. -/
theorem small_list_skips_ranker_witness :
    rank_interactions (fun _ => 1) (fun _ => Except.ok []) sampleFlow
      ["a", "b"] 50 = ["a", "b"] :=
  (small_list_skips_ranker 50 (fun _ => 1) (fun _ => Except.ok [])
    (fun _ => Except.error "unused") "T" (fun _ => Except.ok none)
    (fun _ => Except.error "unused") sampleFlow ["a", "b"] (by decide)).1

/-! ## Claim C1: summarization failure handling -/

/-- Counterexample to C1 as stated: a raising summarization backend makes
`generate_summary` propagate the exception (`Except.error`) instead of
returning the fallback pair — the backend call sits outside the
`try/except` in the source. -/
theorem generate_summary_backend_error_propagates :
    generate_summary 50 (fun _ => 1) (fun _ => Except.ok []) "T"
      (fun _ => Except.error "APIConnectionError")
      (fun _ => Except.error "ValidationError") sampleFlow ["a"] =
      Except.error "APIConnectionError" := rfl

/-- Claim C1 (amended): if the summarization response's content is absent,
empty, or fails schema validation, `generate_summary` returns the fixed
fallback string paired with exactly the interaction list it was about to
summarize (the post-ranking `summary_input`), raising nothing; but an
exception from the backend call itself propagates unchanged. -/
theorem generate_summary_failure_handling {σ ε : Type} (K : Int)
    (norm : List ℚ → ℚ) (embed : List String → Except String (List (List ℚ)))
    (template : String) (chat : String → Except String (Option String))
    (parse_summary : String → Except String SummaryResponse)
    (flow_data : FlowData σ ε) (interactions : List String) :
    (chat (build_summary_prompt template flow_data
          (summary_input K norm embed flow_data interactions)) =
        Except.ok none →
      generate_summary K norm embed template chat parse_summary flow_data
          interactions =
        Except.ok ("Unable to generate summary.",
          summary_input K norm embed flow_data interactions)) ∧
    (∀ content, chat (build_summary_prompt template flow_data
          (summary_input K norm embed flow_data interactions)) =
        Except.ok (some content) →
      (content.isEmpty = true ∨
        (∃ e, parse_summary content = Except.error e)) →
      generate_summary K norm embed template chat parse_summary flow_data
          interactions =
        Except.ok ("Unable to generate summary.",
          summary_input K norm embed flow_data interactions)) ∧
    (∀ e, chat (build_summary_prompt template flow_data
          (summary_input K norm embed flow_data interactions)) =
        Except.error e →
      generate_summary K norm embed template chat parse_summary flow_data
          interactions = Except.error e) := by
  refine ⟨?_, ?_, ?_⟩
  · intro hchat
    rw [generate_summary, hchat]
  · intro content hchat hfail
    rw [generate_summary, hchat]
    simp only []
    rcases hfail with hc | ⟨e, hp⟩
    · rw [if_pos hc]
    · by_cases hc : content.isEmpty
      · rw [if_pos hc]
      · rw [if_neg hc, hp]
  · intro e hchat
    rw [generate_summary, hchat]

/-- Witness for C1 (amended): a response that fails schema validation
yields the fallback summary paired with the input list. -/
theorem generate_summary_failure_handling_witness :
    generate_summary 50 (fun _ => 1) (fun _ => Except.ok []) "T"
      (fun _ => Except.ok (some "not json"))
      (fun _ => Except.error "ValidationError") sampleFlow ["a"] =
      Except.ok ("Unable to generate summary.",
        summary_input 50 (fun _ => 1) (fun _ => Except.ok []) sampleFlow
          ["a"]) :=
  (generate_summary_failure_handling 50 (fun _ => 1) (fun _ => Except.ok [])
      "T" (fun _ => Except.ok (some "not json"))
      (fun _ => Except.error "ValidationError") sampleFlow ["a"]).2.1
    "not json" rfl (Or.inr ⟨"ValidationError", rfl⟩)

/-! ## Claim C2: the image stage -/

/-- Lemma: `create_social_image` always raises: the source passes four positional
arguments to the three-parameter `build_image_prompt`, outside the `try`
block, so the `TypeError` propagates.  Shared helper for C2 and C8. -/
lemma create_social_image_eq_error {σ ε : Type} (prompt_template : String)
    (image_backend : String → Except String (Option String))
    (flow_data : FlowData σ ε) (summary : String) :
    create_social_image prompt_template image_backend flow_data summary =
      Except.error
        "TypeError: build_image_prompt() takes 3 positional arguments but 4 were given" :=
  rfl

/-- Claim C2 is refuted by the code: for every template, backend, flow and
summary, `create_social_image` raises `TypeError` (from the 4-argument
call of the 3-parameter `build_image_prompt`, placed before the `try`
block), so the failure is neither logged-and-swallowed nor local. -/
theorem create_social_image_always_raises {σ ε : Type}
    (prompt_template : String)
    (image_backend : String → Except String (Option String))
    (flow_data : FlowData σ ε) (summary : String) :
    create_social_image prompt_template image_backend flow_data summary =
      Except.error
        "TypeError: build_image_prompt() takes 3 positional arguments but 4 were given" :=
  create_social_image_eq_error prompt_template image_backend flow_data summary

/-! ## Claim C8: report dataflow -/

/-- Claim C8 against the code: (1) the `analyze` pipeline never reaches the
report stage — every run aborts with the summarizer's propagated backend
error or with the image stage's `TypeError` — so no run's markdown report
exists; (2) the report generator itself, which `analyze` invokes on the
full pre-ranking interaction list, places every interaction, 1-based and
in extraction order, at line `8 + k` of the markdown, before the image
footer. -/
theorem analyze_report_dataflow {σ ε : Type} (max_steps_per_chunk : Nat)
    (max_interactions_for_summary : Int) (norm : List ℚ → ℚ)
    (parse_interactions : String → Except String (List String))
    (chunk_backend : FlowChunk σ ε → Nat → Except String (Option String))
    (embed : List String → Except String (List (List ℚ)))
    (summary_template : String)
    (chat : String → Except String (Option String))
    (parse_summary : String → Except String SummaryResponse)
    (image_template : String)
    (image_backend : String → Except String (Option String))
    (image_output : String) (flow_data : FlowData σ ε) :
    (analyze_pipeline max_steps_per_chunk max_interactions_for_summary norm
        parse_interactions chunk_backend embed summary_template chat
        parse_summary image_template image_backend image_output
        flow_data).isOk = false ∧
    (∀ (interactions : List String) (summary image_path : String) (k : Nat),
      (generate_report interactions summary image_path)[8 + k]? =
        if k < interactions.length then
          some (toString (k + 1) ++ ". " ++ interactions.getD k "")
        else
          ["", "## Social Media Image", "",
            "![Flow Visualization](" ++ image_path ++ ")", ""][k - interactions.length]?) := by
  constructor
  · rw [analyze_pipeline]
    rcases hg : generate_summary max_interactions_for_summary norm embed
        summary_template chat parse_summary flow_data
        (identify_interactions max_steps_per_chunk parse_interactions
          chunk_backend flow_data) with e | p
    · rfl
    · rcases p with ⟨summary, rest⟩
      simp only []
      rw [create_social_image_eq_error]
      rfl
  · intro interactions summary image_path k
    rw [generate_report]
    have h8 : (["# Arcade Flow Analysis Report", "", "## Summary", "",
        summary, "", "## User Interactions", ""] : List String).length = 8 := by
      simp
    rw [List.append_assoc, List.getElem?_append_right (by omega)]
    have hk8 : 8 + k - (["# Arcade Flow Analysis Report", "", "## Summary",
        "", summary, "", "## User Interactions", ""] : List String).length
        = k := by
      rw [h8]
      omega
    rw [hk8]
    have hnum : ((List.range interactions.length).map
        (fun j => toString (j + 1) ++ ". " ++ interactions.getD j "")).length
        = interactions.length := by
      simp
    by_cases hk : k < interactions.length
    · rw [List.getElem?_append_left (by omega), if_pos hk]
      simp [hk]
    · rw [List.getElem?_append_right (by omega), if_neg hk, hnum]

/-! ## Spec-side MMR definitions (for claim C4)

These definitions follow the specification's words (spec §4.3 / claim C4)
rather than the source, and are compared with the source-side
`mmr_select_indices` by refinement. -/

/-- Spec §4.3: "Select the candidate with the highest `mmrScore`; break
ties by earliest original index": among the candidates attaining the
maximal score, the smallest (earliest original) index. -/
def spec_pick (score : Nat → ℚ) (remaining : List Nat) : Option Nat :=
  match remaining.filter (fun i => remaining.all (fun j => score j ≤ score i)) with
  | [] => none
  | c :: cs => some (cs.foldl min c)

/-- Spec §4.3: `mmrScore(c) = 0.7·importance(c) + 0.3·(1 - max cosine
similarity of c to the already-selected items)`. -/
def spec_mmr_score (norm : List ℚ → ℚ) (embeddings : List (List ℚ))
    (importance_scores : List ℚ) (selected : List Nat) (idx : Nat) : ℚ :=
  7/10 * importance_scores.getD idx 0 +
    3/10 * (1 - max_sim_to_selected norm embeddings idx selected)

/-- Spec §4.3: "Repeat until `K` selected or no candidates remain",
selecting at every round the highest-score candidate (earliest original
index on ties).  `fuel` bounds the rounds; callers pass
`remaining.length`. -/
def spec_mmr_loop (norm : List ℚ → ℚ) (embeddings : List (List ℚ))
    (importance_scores : List ℚ) (target_count : Int) :
    Nat → List Nat → List Nat → List Nat
  | 0, selected, _ => selected
  | fuel + 1, selected, remaining =>
    if (selected.length : Int) < target_count ∧ remaining ≠ [] then
      match spec_pick
          (spec_mmr_score norm embeddings importance_scores selected)
          remaining with
      | some best_idx =>
        spec_mmr_loop norm embeddings importance_scores target_count fuel
          (selected ++ [best_idx]) (remaining.erase best_idx)
      | none => selected
    else selected

/-- Spec §4.3: seed the selection with the single highest-importance
interaction (earliest index on ties), then iterate. -/
def spec_mmr_select (norm : List ℚ → ℚ) (embeddings : List (List ℚ))
    (importance_scores : List ℚ) (target_count : Int) : List Nat :=
  match spec_pick (fun i => importance_scores.getD i 0)
      (List.range embeddings.length) with
  | none => []
  | some seed =>
    spec_mmr_loop norm embeddings importance_scores target_count
      ((List.range embeddings.length).erase seed).length [seed]
      ((List.range embeddings.length).erase seed)

/-! ## Helper lemmas: the MMR selection -/

lemma list_find?_congr {α : Type} {p q : α → Bool} :
    ∀ l : List α, (∀ a ∈ l, p a = q a) → l.find? p = l.find? q := by
  intro l
  induction l with
  | nil => intro _; rfl
  | cons x xs ih =>
    intro h
    rw [List.find?_cons, List.find?_cons, h x (by simp)]
    cases hq : q x with
    | true => rfl
    | false => exact ih (fun a ha => h a (by simp [ha]))

lemma list_find?_eq_head?_filter {α : Type} (p : α → Bool) :
    ∀ l : List α, l.find? p = (l.filter p).head? := by
  intro l
  induction l with
  | nil => rfl
  | cons x xs ih =>
    by_cases hx : p x
    · rw [List.find?_cons_of_pos _ hx, List.filter_cons_of_pos hx]
      rfl
    · rw [List.find?_cons_of_neg _ hx, List.filter_cons_of_neg (by simpa using hx), ih]

lemma foldl_min_of_le (c : Nat) : ∀ cs : List Nat, (∀ x ∈ cs, c ≤ x) →
    cs.foldl min c = c := by
  intro cs
  induction cs with
  | nil => intro _; rfl
  | cons x xs ih =>
    intro h
    rw [List.foldl_cons, min_eq_left (h x (by simp))]
    exact ih (fun a ha => h a (by simp [ha]))

lemma foldl_min_mem (c : Nat) : ∀ cs : List Nat, cs.foldl min c ∈ c :: cs := by
  intro cs
  induction cs generalizing c with
  | nil => simp
  | cons x xs ih =>
    rw [List.foldl_cons]
    rcases List.mem_cons.mp (ih (min c x)) with hm | hm
    · rw [hm]
      rcases min_choice c x with h | h
      · rw [h]
        simp
      · rw [h]
        simp
    · simp [hm]

/-- On an index list sorted strictly increasing, the first maximizer (what
the running-maximum loop returns) is the least-index maximizer (what the
spec asks for). -/
lemma find?_max_eq_spec_pick (score : Nat → ℚ) (l : List Nat)
    (hsort : l.Pairwise (· < ·)) :
    l.find? (fun i => l.all (fun j => score j ≤ score i)) =
      spec_pick score l := by
  rw [list_find?_eq_head?_filter, spec_pick]
  rcases hf : l.filter (fun i => l.all (fun j => score j ≤ score i)) with _ | ⟨c, cs⟩
  · rfl
  · have hsorted : (c :: cs).Pairwise (fun a b => a < b) := by
      rw [← hf]
      exact hsort.filter _
    have hcle : ∀ x ∈ cs, c ≤ x := by
      intro x hx
      exact le_of_lt (List.rel_of_pairwise_cons hsorted hx)
    show (c :: cs).head? = some (List.foldl min c cs)
    rw [foldl_min_of_le c cs hcle]
    rfl

lemma exists_max_mem (score : Nat → ℚ) :
    ∀ l : List Nat, l ≠ [] → ∃ i ∈ l, ∀ j ∈ l, score j ≤ score i := by
  intro l
  induction l with
  | nil => intro h; exact absurd rfl h
  | cons x xs ih =>
    intro _
    rcases eq_or_ne xs [] with rfl | hxs
    · exact ⟨x, by simp, by simp⟩
    · obtain ⟨i, hi, hmax⟩ := ih hxs
      rcases le_total (score i) (score x) with h | h
      · refine ⟨x, by simp, ?_⟩
        intro j hj
        rcases List.mem_cons.mp hj with rfl | hj
        · exact le_refl _
        · exact le_trans (hmax j hj) h
      · refine ⟨i, by simp [hi], ?_⟩
        intro j hj
        rcases List.mem_cons.mp hj with rfl | hj
        · exact h
        · exact hmax j hj

lemma spec_pick_isSome (score : Nat → ℚ) (l : List Nat) (hl : l ≠ []) :
    (spec_pick score l).isSome = true := by
  obtain ⟨i, hi, hmax⟩ := exists_max_mem score l hl
  have hif : i ∈ l.filter (fun i => l.all (fun j => score j ≤ score i)) := by
    rw [List.mem_filter]
    exact ⟨hi, by rw [List.all_eq_true]; intro j hj; simpa using hmax j hj⟩
  rw [spec_pick]
  rcases hf : l.filter (fun i => l.all (fun j => score j ≤ score i)) with _ | ⟨c, cs⟩
  · rw [hf] at hif
    simp at hif
  · rfl

lemma spec_pick_mem {score : Nat → ℚ} {l : List Nat} {b : Nat}
    (h : spec_pick score l = some b) : b ∈ l := by
  rw [spec_pick] at h
  rcases hf : l.filter (fun i => l.all (fun j => score j ≤ score i)) with _ | ⟨c, cs⟩
  · rw [hf] at h
    simp at h
  · rw [hf] at h
    simp only [Option.some.injEq] at h
    have hmem : b ∈ c :: cs := by
      rw [← h]
      exact foldl_min_mem c cs
    have := List.filter_sublist (p := fun i => l.all (fun j => score j ≤ score i)) l
    rw [hf] at this
    exact this.subset hmem

lemma spec_pick_maximal {score : Nat → ℚ} {l : List Nat} {b : Nat}
    (hsort : l.Pairwise (· < ·)) (h : spec_pick score l = some b) :
    ∀ j ∈ l, score j ≤ score b := by
  rw [← find?_max_eq_spec_pick score l hsort] at h
  have := List.find?_some h
  rw [List.all_eq_true] at this
  intro j hj
  simpa using this j hj

/-- The running-maximum fold, started after its first strict improvement at
`cur`, returns the first maximizer of the whole list `cur :: l`. -/
lemma mmr_pick_fold_from (score : Nat → ℚ) :
    ∀ (l : List Nat) (cur : Nat),
      (l.foldl
        (fun best idx => if best.1 < score idx then (score idx, some idx) else best)
        (score cur, some cur)).2 =
      (cur :: l).find? (fun i => (cur :: l).all (fun j => score j ≤ score i)) := by
  intro l
  induction l with
  | nil =>
    intro cur
    rw [List.foldl_nil, List.find?_cons_of_pos]
    simp
  | cons x xs ih =>
    intro cur
    rw [List.foldl_cons]
    by_cases hcmp : score cur < score x
    · rw [if_pos hcmp, ih x]
      have hcur : ¬((cur :: x :: xs).all
          (fun j => score j ≤ score cur) = true) := by
        rw [List.all_eq_true]
        intro hall
        have := hall x (by simp)
        simp at this
        linarith
      have h1 : List.find?
          (fun i => (cur :: x :: xs).all (fun j => score j ≤ score i))
          (cur :: x :: xs) =
          List.find?
            (fun i => (cur :: x :: xs).all (fun j => score j ≤ score i))
            (x :: xs) :=
        List.find?_cons_of_neg _ hcur
      rw [h1]
      refine list_find?_congr (x :: xs) ?_
      intro z hz
      refine Bool.eq_iff_iff.mpr ?_
      rw [List.all_eq_true, List.all_eq_true]
      constructor
      · intro hall j hj
        have hx : score x ≤ score z := by simpa using hall x (by simp)
        rcases List.mem_cons.mp hj with rfl | hj
        · simp
          linarith
        · exact hall j (by simp [hj])
      · intro hall j hj
        rcases List.mem_cons.mp hj with rfl | hj
        · exact hall j (by simp)
        · exact hall j (by simp [hj])
    · rw [if_neg hcmp, ih cur]
      have hxc : score x ≤ score cur := by linarith [not_lt.mp hcmp]
      by_cases hcur : (cur :: xs).all (fun j => score j ≤ score cur) = true
      · have hfull : (cur :: x :: xs).all (fun j => score j ≤ score cur) = true := by
          rw [List.all_eq_true] at hcur ⊢
          intro j hj
          rcases List.mem_cons.mp hj with rfl | hj
          · exact hcur j (by simp)
          · rcases List.mem_cons.mp hj with rfl | hj
            · simpa using hxc
            · exact hcur j (by simp [hj])
        have h1 : List.find?
            (fun i => (cur :: xs).all (fun j => score j ≤ score i))
            (cur :: xs) = some cur :=
          List.find?_cons_of_pos _ hcur
        have h2 : List.find?
            (fun i => (cur :: x :: xs).all (fun j => score j ≤ score i))
            (cur :: x :: xs) = some cur :=
          List.find?_cons_of_pos _ hfull
        rw [h1, h2]
      · obtain ⟨j0, hj0mem, hj0⟩ := by
          have := List.all_eq_false.mp (Bool.eq_false_iff.mpr hcur)
          exact this
        have hj0gt : score cur < score j0 := by
          simp at hj0
          linarith
        have hj0xs : j0 ∈ xs := by
          rcases List.mem_cons.mp hj0mem with rfl | hj
          · exact absurd hj0gt (lt_irrefl _)
          · exact hj
        have hfullcur : ¬((cur :: x :: xs).all
            (fun j => score j ≤ score cur) = true) := by
          rw [List.all_eq_true]
          intro hall
          have := hall j0 (by simp [hj0xs])
          simp at this
          linarith
        have hfullx : ¬((cur :: x :: xs).all
            (fun j => score j ≤ score x) = true) := by
          rw [List.all_eq_true]
          intro hall
          have := hall j0 (by simp [hj0xs])
          simp at this
          linarith
        have h1 : List.find?
            (fun i => (cur :: xs).all (fun j => score j ≤ score i))
            (cur :: xs) =
            List.find? (fun i => (cur :: xs).all (fun j => score j ≤ score i))
              xs :=
          List.find?_cons_of_neg _ hcur
        have h2 : List.find?
            (fun i => (cur :: x :: xs).all (fun j => score j ≤ score i))
            (cur :: x :: xs) =
            List.find?
              (fun i => (cur :: x :: xs).all (fun j => score j ≤ score i))
              (x :: xs) :=
          List.find?_cons_of_neg _ hfullcur
        have h3 : List.find?
            (fun i => (cur :: x :: xs).all (fun j => score j ≤ score i))
            (x :: xs) =
            List.find?
              (fun i => (cur :: x :: xs).all (fun j => score j ≤ score i))
              xs :=
          List.find?_cons_of_neg _ hfullx
        rw [h1, h2, h3]
        refine list_find?_congr xs ?_
        intro z hz
        refine Bool.eq_iff_iff.mpr ?_
        rw [List.all_eq_true, List.all_eq_true]
        constructor
        · intro hall j hj
          rcases List.mem_cons.mp hj with rfl | hj
          · exact hall j (by simp)
          · rcases List.mem_cons.mp hj with rfl | hj
            · have hcz : score cur ≤ score z := by simpa using hall cur (by simp)
              simp
              linarith
            · exact hall j (by simp [hj])
        · intro hall j hj
          rcases List.mem_cons.mp hj with rfl | hj
          · exact hall j (by simp)
          · exact hall j (by simp [hj])

/-- When every candidate scores above the initial `-1.0`, the inner loop of
`_mmr_select_indices` returns the first maximizer. -/
lemma mmr_pick_eq_find? (score : Nat → ℚ) (l : List Nat)
    (h : ∀ x ∈ l, -1 < score x) :
    (mmr_pick score l).2 =
      l.find? (fun i => l.all (fun j => score j ≤ score i)) := by
  cases l with
  | nil => rfl
  | cons x xs =>
    rw [mmr_pick, List.foldl_cons, if_pos (h x (by simp))]
    exact mmr_pick_fold_from score xs x

lemma mmr_pick_eq_spec_pick (score : Nat → ℚ) (l : List Nat)
    (hsort : l.Pairwise (· < ·)) (h : ∀ x ∈ l, -1 < score x) :
    (mmr_pick score l).2 = spec_pick score l := by
  rw [mmr_pick_eq_find? score l h, find?_max_eq_spec_pick score l hsort]

lemma mmr_pick_exists (score : Nat → ℚ) (l : List Nat) (hl : l ≠ [])
    (h : ∀ x ∈ l, -1 < score x) :
    ∃ b ∈ l, (mmr_pick score l).2 = some b := by
  rw [mmr_pick_eq_find? score l h]
  obtain ⟨i, hi, hmax⟩ := exists_max_mem score l hl
  have hsome : (l.find? (fun i => l.all (fun j => score j ≤ score i))).isSome := by
    rw [List.find?_isSome]
    refine ⟨i, hi, ?_⟩
    rw [List.all_eq_true]
    intro j hj
    simpa using hmax j hj
  obtain ⟨b, hb⟩ := Option.isSome_iff_exists.mp hsome
  exact ⟨b, List.mem_of_find?_eq_some hb, hb⟩

lemma foldl_max_le (f : Nat → ℚ) (c : ℚ) :
    ∀ (l : List Nat) (a : ℚ), a ≤ c → (∀ x ∈ l, f x ≤ c) →
      l.foldl (fun m j => max m (f j)) a ≤ c := by
  intro l
  induction l with
  | nil => intro a ha _; simpa using ha
  | cons x xs ih =>
    intro a ha h
    rw [List.foldl_cons]
    exact ih (max a (f x)) (max_le ha (h x (by simp)))
      (fun y hy => h y (by simp [hy]))

lemma max_sim_to_selected_le_one (norm : List ℚ → ℚ)
    (embeddings : List (List ℚ)) (idx : Nat) (selected : List Nat)
    (hsel : selected ≠ [])
    (h : ∀ s ∈ selected, cosine_similarity norm (embeddings.getD idx [])
      (embeddings.getD s []) ≤ 1) :
    max_sim_to_selected norm embeddings idx selected ≤ 1 := by
  match selected with
  | [] => exact absurd rfl hsel
  | s :: rest =>
    rw [max_sim_to_selected]
    exact foldl_max_le _ 1 rest _ (h s (by simp))
      (fun y hy => h y (by simp [hy]))

lemma mmr_score_gt_neg_one (norm : List ℚ → ℚ) (embeddings : List (List ℚ))
    (importance_scores : List ℚ) (selected : List Nat) (idx : Nat)
    (himp : -1 ≤ importance_scores.getD idx 0)
    (hsim : max_sim_to_selected norm embeddings idx selected ≤ 1) :
    -1 < mmr_score norm embeddings importance_scores (7/10) selected idx := by
  rw [mmr_score]
  have h1 : (7/10 : ℚ) * importance_scores.getD idx 0 ≥ (7/10) * (-1) := by
    have : (0 : ℚ) ≤ 7/10 := by norm_num
    exact mul_le_mul_of_nonneg_left himp this
  nlinarith

/-- The candidate scores the inner loop sees all exceed the initial
`best_score = -1.0`, given cosine similarities bounded by `1` and
importance scores bounded below by `-1` — so `best_idx` is always
assigned and the `else: break` branch is unreachable. -/
lemma mmr_scores_bound (norm : List ℚ → ℚ) (embeddings : List (List ℚ))
    (importance_scores : List ℚ)
    (hsim : ∀ i, i < embeddings.length → ∀ j, j < embeddings.length →
      cosine_similarity norm (embeddings.getD i []) (embeddings.getD j []) ≤ 1)
    (himp : ∀ i, i < embeddings.length → -1 ≤ importance_scores.getD i 0)
    (selected remaining : List Nat) (hsel : selected ≠ [])
    (hselb : ∀ x ∈ selected, x < embeddings.length)
    (hremb : ∀ x ∈ remaining, x < embeddings.length) :
    ∀ x ∈ remaining,
      -1 < mmr_score norm embeddings importance_scores (7/10) selected x := by
  intro x hx
  apply mmr_score_gt_neg_one
  · exact himp x (hremb x hx)
  · apply max_sim_to_selected_le_one norm embeddings x selected hsel
    intro s hs
    exact hsim x (hremb x hx) s (hselb s hs)

lemma mmr_score_lambda_spec (norm : List ℚ → ℚ) (embeddings : List (List ℚ))
    (importance_scores : List ℚ) (selected : List Nat) :
    mmr_score norm embeddings importance_scores (7/10) selected =
      spec_mmr_score norm embeddings importance_scores selected := by
  funext idx
  rw [mmr_score, spec_mmr_score]
  ring

/-- Refinement of the selection loop: under the score bounds, the source's
running-maximum loop computes exactly the spec's
pick-highest-score-earliest-index iteration. -/
lemma mmr_loop_eq_spec_loop (norm : List ℚ → ℚ) (embeddings : List (List ℚ))
    (importance_scores : List ℚ) (target_count : Int)
    (hsim : ∀ i, i < embeddings.length → ∀ j, j < embeddings.length →
      cosine_similarity norm (embeddings.getD i []) (embeddings.getD j []) ≤ 1)
    (himp : ∀ i, i < embeddings.length → -1 ≤ importance_scores.getD i 0) :
    ∀ (fuel : Nat) (selected remaining : List Nat),
      selected ≠ [] →
      (∀ x ∈ selected, x < embeddings.length) →
      (∀ x ∈ remaining, x < embeddings.length) →
      remaining.Pairwise (· < ·) →
      mmr_loop norm embeddings importance_scores (7/10) target_count fuel
          selected remaining =
        spec_mmr_loop norm embeddings importance_scores target_count fuel
          selected remaining := by
  intro fuel
  induction fuel with
  | zero => intro selected remaining _ _ _ _; rfl
  | succ fuel ih =>
    intro selected remaining hsel hselb hremb hsort
    rw [mmr_loop, spec_mmr_loop]
    by_cases hcond : (selected.length : Int) < target_count ∧ remaining ≠ []
    · rw [if_pos hcond, if_pos hcond]
      have hscores := mmr_scores_bound norm embeddings importance_scores hsim
        himp selected remaining hsel hselb hremb
      have hpick : (mmr_pick
          (mmr_score norm embeddings importance_scores (7/10) selected)
          remaining).2 =
          spec_pick (spec_mmr_score norm embeddings importance_scores selected)
            remaining := by
        rw [mmr_pick_eq_spec_pick _ _ hsort hscores, mmr_score_lambda_spec]
      have hspecsome : (spec_pick
          (spec_mmr_score norm embeddings importance_scores selected)
          remaining).isSome = true :=
        spec_pick_isSome _ remaining hcond.2
      obtain ⟨b, hb⟩ := Option.isSome_iff_exists.mp hspecsome
      have hbmem : b ∈ remaining := spec_pick_mem hb
      rw [hpick, hb]
      show mmr_loop norm embeddings importance_scores (7/10) target_count fuel
          (selected ++ [b]) (remaining.erase b) =
        spec_mmr_loop norm embeddings importance_scores target_count fuel
          (selected ++ [b]) (remaining.erase b)
      apply ih
      · simp
      · intro x hx
        rcases List.mem_append.mp hx with hx | hx
        · exact hselb x hx
        · simp at hx
          rw [hx]
          exact hremb b hbmem
      · intro x hx
        exact hremb x ((List.erase_sublist b remaining).subset hx)
      · exact List.Pairwise.sublist (List.erase_sublist b remaining) hsort
    · rw [if_neg hcond, if_neg hcond]

/-- With exact fuel, the selection loop grows `selected` until the target
is reached or the candidates run out. -/
lemma mmr_loop_length (norm : List ℚ → ℚ) (embeddings : List (List ℚ))
    (importance_scores : List ℚ) (target_count : Int)
    (hsim : ∀ i, i < embeddings.length → ∀ j, j < embeddings.length →
      cosine_similarity norm (embeddings.getD i []) (embeddings.getD j []) ≤ 1)
    (himp : ∀ i, i < embeddings.length → -1 ≤ importance_scores.getD i 0) :
    ∀ (fuel : Nat) (selected remaining : List Nat),
      remaining.length = fuel → selected ≠ [] →
      (∀ x ∈ selected, x < embeddings.length) →
      (∀ x ∈ remaining, x < embeddings.length) →
      (mmr_loop norm embeddings importance_scores (7/10) target_count fuel
          selected remaining).length =
        selected.length +
          min ((target_count - selected.length).toNat) remaining.length := by
  intro fuel
  induction fuel with
  | zero =>
    intro selected remaining hfuel _ _ _
    rw [mmr_loop, hfuel]
    omega
  | succ fuel ih =>
    intro selected remaining hfuel hsel hselb hremb
    have hrem : remaining ≠ [] := by
      intro h
      rw [h] at hfuel
      simp at hfuel
    rw [mmr_loop]
    by_cases hcond : (selected.length : Int) < target_count
    · rw [if_pos ⟨hcond, hrem⟩]
      have hscores := mmr_scores_bound norm embeddings importance_scores hsim
        himp selected remaining hsel hselb hremb
      obtain ⟨b, hbmem, hb⟩ := mmr_pick_exists _ remaining hrem hscores
      rw [hb]
      show (mmr_loop norm embeddings importance_scores (7/10) target_count
          fuel (selected ++ [b]) (remaining.erase b)).length = _
      rw [ih (selected ++ [b]) (remaining.erase b)
        (by
          rw [List.length_erase_of_mem hbmem, hfuel]
          omega)
        (by simp)
        (by
          intro x hx
          rcases List.mem_append.mp hx with hx | hx
          · exact hselb x hx
          · simp at hx
            rw [hx]
            exact hremb b hbmem)
        (fun x hx => hremb x ((List.erase_sublist b remaining).subset hx))]
      simp only [List.length_append, List.length_singleton]
      rw [List.length_erase_of_mem hbmem]
      omega
    · rw [if_neg (fun hc => hcond hc.1)]
      omega

/-- The loop never selects an index twice. -/
lemma mmr_loop_nodup (norm : List ℚ → ℚ) (embeddings : List (List ℚ))
    (importance_scores : List ℚ) (target_count : Int)
    (hsim : ∀ i, i < embeddings.length → ∀ j, j < embeddings.length →
      cosine_similarity norm (embeddings.getD i []) (embeddings.getD j []) ≤ 1)
    (himp : ∀ i, i < embeddings.length → -1 ≤ importance_scores.getD i 0) :
    ∀ (fuel : Nat) (selected remaining : List Nat),
      selected ≠ [] →
      (∀ x ∈ selected, x < embeddings.length) →
      (∀ x ∈ remaining, x < embeddings.length) →
      selected.Nodup → remaining.Nodup →
      (∀ x ∈ remaining, x ∉ selected) →
      (mmr_loop norm embeddings importance_scores (7/10) target_count fuel
          selected remaining).Nodup := by
  intro fuel
  induction fuel with
  | zero => intro selected remaining _ _ _ hnd _ _; exact hnd
  | succ fuel ih =>
    intro selected remaining hsel hselb hremb hsnd hrnd hdisj
    rw [mmr_loop]
    by_cases hcond : (selected.length : Int) < target_count ∧ remaining ≠ []
    · rw [if_pos hcond]
      have hscores := mmr_scores_bound norm embeddings importance_scores hsim
        himp selected remaining hsel hselb hremb
      obtain ⟨b, hbmem, hb⟩ := mmr_pick_exists _ remaining hcond.2 hscores
      rw [hb]
      show (mmr_loop norm embeddings importance_scores (7/10) target_count
          fuel (selected ++ [b]) (remaining.erase b)).Nodup
      apply ih
      · simp
      · intro x hx
        rcases List.mem_append.mp hx with hx | hx
        · exact hselb x hx
        · simp at hx
          rw [hx]
          exact hremb b hbmem
      · exact fun x hx => hremb x ((List.erase_sublist b remaining).subset hx)
      · rw [List.nodup_append]
        refine ⟨hsnd, by simp, ?_⟩
        intro a ha hab
        simp at hab
        rw [hab] at ha
        exact hdisj b hbmem ha
      · exact hrnd.erase b
      · intro x hx
        have hx' := (hrnd.mem_erase_iff).mp hx
        rw [List.mem_append]
        rintro (hmem | hmem)
        · exact hdisj x hx'.2 hmem
        · simp at hmem
          exact hx'.1 hmem
    · rw [if_neg hcond]
      exact hsnd

/-- Once the target is not above the selected count, the loop is a no-op. -/
lemma mmr_loop_stop (norm : List ℚ → ℚ) (embeddings : List (List ℚ))
    (importance_scores : List ℚ) (lambda_param : ℚ) (target_count : Int)
    (fuel : Nat) (selected remaining : List Nat)
    (h : target_count ≤ (selected.length : Int)) :
    mmr_loop norm embeddings importance_scores lambda_param target_count fuel
      selected remaining = selected := by
  cases fuel with
  | zero => rfl
  | succ fuel =>
    rw [mmr_loop, if_neg]
    intro hc
    omega

/-- Every index the spec loop returns is either initially selected or a
candidate, hence within range. -/
lemma spec_mmr_loop_lt (norm : List ℚ → ℚ) (embeddings : List (List ℚ))
    (importance_scores : List ℚ) (target_count : Int) :
    ∀ (fuel : Nat) (selected remaining : List Nat),
      (∀ x ∈ selected, x < embeddings.length) →
      (∀ x ∈ remaining, x < embeddings.length) →
      ∀ x ∈ spec_mmr_loop norm embeddings importance_scores target_count fuel
        selected remaining, x < embeddings.length := by
  intro fuel
  induction fuel with
  | zero => intro selected remaining hselb _ x hx; exact hselb x hx
  | succ fuel ih =>
    intro selected remaining hselb hremb x hx
    rw [spec_mmr_loop] at hx
    by_cases hcond : (selected.length : Int) < target_count ∧ remaining ≠ []
    · rw [if_pos hcond] at hx
      rcases hsp : spec_pick
          (spec_mmr_score norm embeddings importance_scores selected)
          remaining with _ | b
      · rw [hsp] at hx
        exact hselb x hx
      · rw [hsp] at hx
        have hbmem : b ∈ remaining := spec_pick_mem hsp
        refine ih (selected ++ [b]) (remaining.erase b) ?_ ?_ x hx
        · intro y hy
          rcases List.mem_append.mp hy with hy | hy
          · exact hselb y hy
          · simp at hy
            rw [hy]
            exact hremb b hbmem
        · exact fun y hy => hremb y ((List.erase_sublist b remaining).subset hy)
    · rw [if_neg hcond] at hx
      exact hselb x hx

/-- Fact: `np.argmax` is the spec's seed pick over the index range. -/
lemma np_argmax_eq_spec_pick (l : List ℚ) :
    np_argmax l = spec_pick (fun i => l.getD i 0) (List.range l.length) := by
  rw [np_argmax,
    ← find?_max_eq_spec_pick (fun i => l.getD i 0) (List.range l.length)
      (List.pairwise_lt_range l.length)]

lemma np_argmax_exists (l : List ℚ) (hl : l ≠ []) :
    ∃ i, i < l.length ∧ (∀ j, j < l.length → l.getD j 0 ≤ l.getD i 0) ∧
      np_argmax l = some i := by
  have hrange : List.range l.length ≠ [] := by
    rw [Ne, List.range_eq_nil]
    intro h
    exact hl (List.length_eq_zero.mp h)
  have hsome := spec_pick_isSome (fun i => l.getD i 0) (List.range l.length)
    hrange
  obtain ⟨i, hi⟩ := Option.isSome_iff_exists.mp hsome
  refine ⟨i, ?_, ?_, ?_⟩
  · exact List.mem_range.mp (spec_pick_mem hi)
  · intro j hj
    exact spec_pick_maximal (List.pairwise_lt_range l.length) hi j
      (List.mem_range.mpr hj)
  · rw [np_argmax_eq_spec_pick]
    exact hi

/-- Indexing a list at in-range positions with `Optional` access succeeds
and matches `getD` (for the `[interactions[i] for i in selected]`
comprehension). -/
lemma mapM_get?_of_lt (l : List String) :
    ∀ sel : List Nat, (∀ i ∈ sel, i < l.length) →
      sel.mapM (fun i => l.get? i) = some (sel.map (fun i => l.getD i "")) := by
  intro sel
  induction sel with
  | nil => intro _; rfl
  | cons i is ih =>
    intro h
    have hi : i < l.length := h i (by simp)
    rw [List.mapM_cons, ih (fun j hj => h j (by simp [hj]))]
    rw [List.get?_eq_getElem?, List.getElem?_eq_getElem hi]
    simp [List.getD_eq_getElem?_getD, List.getElem?_eq_getElem hi]

lemma getD_map_cosine (norm : List ℚ → ℚ) (embeddings : List (List ℚ))
    (q : List ℚ) (i : Nat) (hi : i < embeddings.length) :
    (embeddings.map (fun emb => cosine_similarity norm emb q)).getD i 0 =
      cosine_similarity norm (embeddings.getD i []) q := by
  have hi' : i < (embeddings.map (fun emb => cosine_similarity norm emb q)).length := by
    rw [List.length_map]
    exact hi
  rw [List.getD_eq_getElem _ _ hi', List.getElem_map,
    List.getD_eq_getElem _ _ hi]

lemma spec_mmr_select_lt (norm : List ℚ → ℚ) (embeddings : List (List ℚ))
    (importance_scores : List ℚ) (target_count : Int) :
    ∀ x ∈ spec_mmr_select norm embeddings importance_scores target_count,
      x < embeddings.length := by
  intro x hx
  rw [spec_mmr_select] at hx
  rcases hsp : spec_pick (fun i => importance_scores.getD i 0)
      (List.range embeddings.length) with _ | seed
  · rw [hsp] at hx
    simp at hx
  · rw [hsp] at hx
    have hseed : seed < embeddings.length :=
      List.mem_range.mp (spec_pick_mem hsp)
    refine spec_mmr_loop_lt norm embeddings importance_scores target_count _
      _ _ ?_ ?_ x hx
    · intro y hy
      simp at hy
      rw [hy]
      exact hseed
    · intro y hy
      exact List.mem_range.mp ((List.erase_sublist _ _).subset hy)

/-- Core refinement: under the cosine bounds, `_mmr_select_indices`
computes exactly the spec's seed-then-iterate selection. -/
lemma mmr_select_eq_spec_core (norm : List ℚ → ℚ) (embeddings : List (List ℚ))
    (importance_scores : List ℚ) (target_count : Int)
    (hn : 1 ≤ embeddings.length)
    (hlen : importance_scores.length = embeddings.length)
    (hsim : ∀ i, i < embeddings.length → ∀ j, j < embeddings.length →
      cosine_similarity norm (embeddings.getD i []) (embeddings.getD j []) ≤ 1)
    (himp : ∀ i, i < embeddings.length → -1 ≤ importance_scores.getD i 0) :
    mmr_select_indices norm embeddings importance_scores target_count (7/10) =
      Except.ok
        (spec_mmr_select norm embeddings importance_scores target_count) := by
  have hsne : importance_scores ≠ [] := by
    intro h
    rw [h] at hlen
    simp at hlen
    omega
  obtain ⟨i0, hi0, _, hargmax⟩ := np_argmax_exists importance_scores hsne
  have hi0emb : i0 < embeddings.length := by
    rw [← hlen]
    exact hi0
  have hspecseed : spec_pick (fun i => importance_scores.getD i 0)
      (List.range embeddings.length) = some i0 := by
    rw [← hlen, ← np_argmax_eq_spec_pick]
    exact hargmax
  rw [mmr_select_indices, hargmax, spec_mmr_select, hspecseed]
  show Except.ok (mmr_loop norm embeddings importance_scores (7/10)
      target_count ((List.range embeddings.length).erase i0).length [i0]
      ((List.range embeddings.length).erase i0)) =
    Except.ok (spec_mmr_loop norm embeddings importance_scores target_count
      ((List.range embeddings.length).erase i0).length [i0]
      ((List.range embeddings.length).erase i0))
  refine congrArg Except.ok ?_
  apply mmr_loop_eq_spec_loop norm embeddings importance_scores target_count
    hsim himp
  · simp
  · intro x hx
    simp at hx
    rw [hx]
    exact hi0emb
  · intro x hx
    exact List.mem_range.mp ((List.erase_sublist _ _).subset hx)
  · exact List.Pairwise.sublist (List.erase_sublist _ _)
      (List.pairwise_lt_range _)

/-- Core fact for C9: with a non-positive target, the seed is appended
before the count check, so exactly one index is returned. -/
lemma mmr_select_nonpos_core (norm : List ℚ → ℚ) (embeddings : List (List ℚ))
    (importance_scores : List ℚ) (target_count : Int)
    (hne : embeddings ≠ [])
    (hlen : importance_scores.length = embeddings.length)
    (htc : target_count ≤ 0) :
    ∃ i0, i0 < embeddings.length ∧
      (∀ j, j < importance_scores.length →
        importance_scores.getD j 0 ≤ importance_scores.getD i0 0) ∧
      mmr_select_indices norm embeddings importance_scores target_count
        (7/10) = Except.ok [i0] := by
  have hsne : importance_scores ≠ [] := by
    intro h
    rw [h] at hlen
    simp at hlen
    exact hne (List.length_eq_zero.mp hlen.symm)
  obtain ⟨i0, hi0, hmax, hargmax⟩ := np_argmax_exists importance_scores hsne
  refine ⟨i0, by rw [hlen] at hi0; exact hi0, hmax, ?_⟩
  rw [mmr_select_indices, hargmax]
  show Except.ok (mmr_loop norm embeddings importance_scores (7/10)
      target_count ((List.range embeddings.length).erase i0).length [i0]
      ((List.range embeddings.length).erase i0)) = Except.ok [i0]
  refine congrArg Except.ok ?_
  apply mmr_loop_stop
  simp
  omega

/-! ## Claim C4: the MMR selection refines its specification -/

/-- Claim C4: with cosine similarities bounded by `1` (as produced by real
embeddings) and importance scores in `[-1, _]`, `_mmr_select_indices`
seeds with the highest-importance index and then repeatedly selects the
unselected candidate maximizing `0.7·importance + 0.3·(1 - max cosine
similarity to selected)` — exact ties resolved to the earliest original
index, because the loop keeps one running maximum under strict `>` and
the candidate list stays in increasing index order — stopping when the
target count is reached or no candidates remain (`spec_mmr_select`); and
the ranker returns the chosen interactions in selection order. -/
theorem mmr_select_matches_spec {σ ε : Type} (norm : List ℚ → ℚ)
    (embeddings : List (List ℚ)) (importance_scores : List ℚ) (q : List ℚ)
    (interactions : List String) (flow_data : Option (FlowData σ ε))
    (target_count : Int)
    (hn : 1 ≤ embeddings.length)
    (hlen : importance_scores.length = embeddings.length)
    (hsim : ∀ i, i < embeddings.length → ∀ j, j < embeddings.length →
      cosine_similarity norm (embeddings.getD i []) (embeddings.getD j []) ≤ 1)
    (himp : ∀ i, i < embeddings.length → -1 ≤ importance_scores.getD i 0) :
    mmr_select_indices norm embeddings importance_scores target_count (7/10) =
      Except.ok
        (spec_mmr_select norm embeddings importance_scores target_count) ∧
    (interactions.length = embeddings.length →
      (∀ i, i < embeddings.length →
        -1 ≤ cosine_similarity norm (embeddings.getD i []) q) →
      embedding_based_filter_interactions norm
          (fun _ => Except.ok (q :: embeddings)) interactions target_count
          flow_data =
        (spec_mmr_select norm embeddings
            (embeddings.map (fun emb => cosine_similarity norm emb q))
            target_count).map (fun i => interactions.getD i "")) := by
  constructor
  · exact mmr_select_eq_spec_core norm embeddings importance_scores
      target_count hn hlen hsim himp
  · intro hilen hq
    have hsimslen : (embeddings.map
        (fun emb => cosine_similarity norm emb q)).length =
        embeddings.length := List.length_map embeddings _
    have hsimsimp : ∀ i, i < embeddings.length →
        -1 ≤ (embeddings.map
          (fun emb => cosine_similarity norm emb q)).getD i 0 := by
      intro i hi
      rw [getD_map_cosine norm embeddings q i hi]
      exact hq i hi
    have hsel := mmr_select_eq_spec_core norm embeddings
      (embeddings.map (fun emb => cosine_similarity norm emb q)) target_count
      hn hsimslen hsim hsimsimp
    have hbound : ∀ i ∈ spec_mmr_select norm embeddings
        (embeddings.map (fun emb => cosine_similarity norm emb q))
        target_count, i < interactions.length := by
      intro i hi
      rw [hilen]
      exact spec_mmr_select_lt norm embeddings _ target_count i hi
    show (match mmr_select_indices norm embeddings
        (embeddings.map (fun emb => cosine_similarity norm emb q))
        target_count (7/10) with
      | Except.error _ => py_slice_to interactions target_count
      | Except.ok selected_indices =>
        match selected_indices.mapM (fun i => interactions.get? i) with
        | some chosen => chosen
        | none => py_slice_to interactions target_count) =
      (spec_mmr_select norm embeddings
          (embeddings.map (fun emb => cosine_similarity norm emb q))
          target_count).map (fun i => interactions.getD i "")
    rw [hsel]
    show (match (spec_mmr_select norm embeddings
        (embeddings.map (fun emb => cosine_similarity norm emb q))
        target_count).mapM (fun i => interactions.get? i) with
      | some chosen => chosen
      | none => py_slice_to interactions target_count) = _
    rw [mapM_get?_of_lt interactions _ hbound]

/-- Witness for C4: two one-dimensional embeddings with unit norms. -/
theorem mmr_select_matches_spec_witness :
    mmr_select_indices (fun _ => 1) [[1], [1]] [1, 1/2] 2 (7/10) =
      Except.ok (spec_mmr_select (fun _ => 1) [[1], [1]] [1, 1/2] 2) :=
  (mmr_select_matches_spec (fun _ => 1) [[1], [1]] [1, 1/2] [1] ["a", "b"]
    (none : Option (FlowData Nat Nat)) 2
    (by simp)
    (by simp)
    (by
      intro i hi j hj
      simp at hi hj
      interval_cases i <;> interval_cases j <;>
        norm_num [cosine_similarity, np_dot])
    (by
      intro i hi
      simp at hi
      interval_cases i <;> norm_num [List.getD])).1

/-! ## Claim C9: non-positive target still selects one index -/

/-- Claim C9: for a non-empty embeddings array, the highest-importance
index is appended before the count check, so `_mmr_select_indices`
returns exactly one index even when `target_count ≤ 0`, and a caller of
the ranker requesting zero interactions from a non-empty list still
receives one. -/
theorem mmr_nonpos_target_still_selects_one {σ ε : Type}
    (norm : List ℚ → ℚ) (embeddings : List (List ℚ))
    (importance_scores : List ℚ) (q : List ℚ) (interactions : List String)
    (flow_data : Option (FlowData σ ε)) (target_count : Int)
    (hne : embeddings ≠ [])
    (hlen : importance_scores.length = embeddings.length)
    (htc : target_count ≤ 0) :
    (∃ i0, i0 < embeddings.length ∧
      (∀ j, j < importance_scores.length →
        importance_scores.getD j 0 ≤ importance_scores.getD i0 0) ∧
      mmr_select_indices norm embeddings importance_scores target_count
        (7/10) = Except.ok [i0]) ∧
    (interactions.length = embeddings.length →
      (embedding_based_filter_interactions norm
        (fun _ => Except.ok (q :: embeddings)) interactions target_count
        flow_data).length = 1) := by
  constructor
  · exact mmr_select_nonpos_core norm embeddings importance_scores
      target_count hne hlen htc
  · intro hilen
    obtain ⟨i0, hi0, _, hsel⟩ := mmr_select_nonpos_core norm embeddings
      (embeddings.map (fun emb => cosine_similarity norm emb q)) target_count
      hne (List.length_map embeddings _) htc
    have hval : embedding_based_filter_interactions norm
        (fun _ => Except.ok (q :: embeddings)) interactions target_count
        flow_data = [interactions.getD i0 ""] := by
      show (match mmr_select_indices norm embeddings
          (embeddings.map (fun emb => cosine_similarity norm emb q))
          target_count (7/10) with
        | Except.error _ => py_slice_to interactions target_count
        | Except.ok selected_indices =>
          match selected_indices.mapM (fun i => interactions.get? i) with
          | some chosen => chosen
          | none => py_slice_to interactions target_count) =
        [interactions.getD i0 ""]
      rw [hsel]
      show (match ([i0].mapM (fun i => interactions.get? i)) with
        | some chosen => chosen
        | none => py_slice_to interactions target_count) =
        [interactions.getD i0 ""]
      rw [mapM_get?_of_lt interactions [i0] (by
        intro i hi
        simp at hi
        rw [hi, hilen]
        exact hi0)]
      rfl
    rw [hval]
    rfl

/-- Witness for C9: requesting `-3` interactions from a 2-element list
still yields one. -/
theorem mmr_nonpos_target_still_selects_one_witness :
    (embedding_based_filter_interactions (fun _ => 1)
      (fun _ => Except.ok ([1] :: [[1], [1]])) ["a", "b"] (-3)
      (none : Option (FlowData Nat Nat))).length = 1 :=
  (mmr_nonpos_target_still_selects_one (fun _ => 1) [[1], [1]] [1, 1/2] [1]
    ["a", "b"] (none : Option (FlowData Nat Nat)) (-3)
    (by simp) (by simp) (by norm_num)).2 (by simp)

/-! ## Claim C10: selection count and distinctness -/

/-- Claim C10: when every cosine similarity is at most `1` and every
importance score at least `-1`, every candidate's MMR score strictly
exceeds the initial `best_score = -1.0`, so `best_idx` is assigned on
every iteration (the `break` branch is unreachable — last conjunct), and
for `n ≥ 1` interactions the returned index list has exactly
`min (max 1 target_count) n` pairwise-distinct entries. -/
theorem mmr_select_count_distinct (norm : List ℚ → ℚ)
    (embeddings : List (List ℚ)) (importance_scores : List ℚ)
    (target_count : Int)
    (hn : 1 ≤ embeddings.length)
    (hlen : importance_scores.length = embeddings.length)
    (hsim : ∀ i, i < embeddings.length → ∀ j, j < embeddings.length →
      cosine_similarity norm (embeddings.getD i []) (embeddings.getD j []) ≤ 1)
    (himp : ∀ i, i < embeddings.length → -1 ≤ importance_scores.getD i 0) :
    (∃ sel, mmr_select_indices norm embeddings importance_scores target_count
        (7/10) = Except.ok sel ∧ sel.Nodup ∧
      (sel.length : Int) = min (max 1 target_count)
        (embeddings.length : Int)) ∧
    (∀ selected remaining : List Nat, selected ≠ [] → remaining ≠ [] →
      (∀ x ∈ selected, x < embeddings.length) →
      (∀ x ∈ remaining, x < embeddings.length) →
      ((mmr_pick
        (mmr_score norm embeddings importance_scores (7/10) selected)
        remaining).2).isSome = true) := by
  constructor
  · have hsne : importance_scores ≠ [] := by
      intro h
      rw [h] at hlen
      simp at hlen
      omega
    obtain ⟨i0, hi0, _, hargmax⟩ := np_argmax_exists importance_scores hsne
    have hi0emb : i0 < embeddings.length := by
      rw [← hlen]
      exact hi0
    have hi0mem : i0 ∈ List.range embeddings.length :=
      List.mem_range.mpr hi0emb
    refine ⟨mmr_loop norm embeddings importance_scores (7/10) target_count
      ((List.range embeddings.length).erase i0).length [i0]
      ((List.range embeddings.length).erase i0), ?_, ?_, ?_⟩
    · rw [mmr_select_indices, hargmax]
    · apply mmr_loop_nodup norm embeddings importance_scores target_count
        hsim himp
      · simp
      · intro x hx
        simp at hx
        rw [hx]
        exact hi0emb
      · intro x hx
        exact List.mem_range.mp ((List.erase_sublist _ _).subset hx)
      · simp
      · exact (List.nodup_range _).erase i0
      · intro x hx
        have hx' := ((List.nodup_range embeddings.length).mem_erase_iff).mp hx
        simpa using hx'.1
    · rw [mmr_loop_length norm embeddings importance_scores target_count hsim
        himp _ _ _ rfl (by simp)
        (by
          intro x hx
          simp at hx
          rw [hx]
          exact hi0emb)
        (fun x hx => List.mem_range.mp ((List.erase_sublist _ _).subset hx))]
      rw [List.length_erase_of_mem hi0mem, List.length_range]
      simp only [List.length_singleton]
      omega
  · intro selected remaining hsel hrem hselb hremb
    have hscores := mmr_scores_bound norm embeddings importance_scores hsim
      himp selected remaining hsel hselb hremb
    obtain ⟨b, _, hb⟩ := mmr_pick_exists _ remaining hrem hscores
    rw [hb]
    rfl

/-- Witness for C10: `n = 2`, `target_count = 5` yields 2 distinct
indices. -/
theorem mmr_select_count_distinct_witness :
    ∃ sel, mmr_select_indices (fun _ => 1) [[1], [1]] [1, 1/2] 5 (7/10) =
        Except.ok sel ∧ sel.Nodup ∧
      (sel.length : Int) = min (max 1 5)
        ((([[1], [1]] : List (List ℚ)).length : Int)) :=
  (mmr_select_count_distinct (fun _ => 1) [[1], [1]] [1, 1/2] 5
    (by simp) (by simp)
    (by
      intro i hi j hj
      simp at hi hj
      interval_cases i <;> interval_cases j <;>
        norm_num [cosine_similarity, np_dot])
    (by
      intro i hi
      simp at hi
      interval_cases i <;> norm_num [List.getD])).1
